import Mathlib

/-!
Verification of the OSM-to-CSV conversion pipeline (convert_to_csv.py and
query_osm.py), as a shallow embedding in Lean 4.

Modelling conventions:
* A JSON element is an `Element`: the fields the Python code reads via
  `element.get(...)` are `Option`-valued when the code tolerates absence.
* Python dicts (element tags, data rows, the node lookup) are association
  lists with unique keys; `dictSet` updates the first occurrence in place or
  appends at the end, exactly the Python dict-assignment order semantics.
* Numbers appearing in rows (coordinates, ids) are modelled as `Int`: the
  code never computes with them, it only copies them.
* Python operations that can raise (plain `d[k]` indexing on dicts and
  DataFrames) are modelled in `Option`, `none` being the raised exception.
* `str.startswith` is modelled on the character lists of the strings.
-/

namespace Osm

/-- A scalar cell value of a data row: a missing value (pandas NaN / Python
None), a string, or a number. -/
inductive Val where
  | null
  | str (s : String)
  | int (n : Int)
deriving DecidableEq

/-- One element of a raw Overpass JSON document, with exactly the fields
convert_to_csv.py reads: `type`, `id`, `lat`, `lon`, `tags`, `nodes`.
Absent fields are `none` / the empty list, matching `element.get(...)`
defaults in the source. -/
structure Element where
  type : Option String
  id : Option Int
  lat : Option Int
  lon : Option Int
  tags : List (String × String)
  nodes : List Int
deriving DecidableEq

/-- A flattened data row: a Python dict from column name to value. -/
abbrev Row := List (String × Val)

/-- Python dict assignment `d[k] = v`: update the (first) occurrence of `k`
in place, or append `(k, v)` when `k` is absent. -/
def dictSet : Row → String → Val → Row
  | [], k, v => [(k, v)]
  | kv :: rest, k, v =>
      if kv.1 = k then (k, v) :: rest
      else kv :: dictSet rest k v

/-- Python dict lookup `d.get(k)`: the value at the first occurrence of `k`,
`none` when absent. -/
def dictGet : Row → String → Option Val
  | [], _ => none
  | kv :: rest, k => if kv.1 = k then some kv.2 else dictGet rest k

/-- The keys of a row, in order. -/
def rowKeys (d : Row) : List String := d.map Prod.fst

/-- `create_node_lookup` (convert_to_csv.py:23): a dict from node id to
(lat, lon) built from every element with `type == 'node'` that carries both
`lat` and `lon`.  The source indexes `element['id']` directly, which raises
`KeyError` when `id` is absent; that exception is the `none` result here. -/
def create_node_lookup (elements : List Element) :
    Option (Int → Option (Int × Int)) :=
  elements.foldlM (fun lookup e =>
    if e.type = some "node" then
      match e.lat, e.lon with
      | some la, some lo =>
          match e.id with
          | some i => some (fun k => if k = i then some (la, lo) else lookup k)
          | none => none
      | _, _ => some lookup
    else some lookup) (fun _ => none)

/-- Python `s.startswith(p)`, on the characters of the strings. -/
def strStarts (s p : String) : Bool := p.data.isPrefixOf s.data

/-- The `meaningful_keys` allow-set of `should_include_element`
(convert_to_csv.py:48). -/
def meaningful_keys : List String :=
  ["name", "amenity", "shop", "building", "leisure", "religion",
   "phone", "website", "addr:housenumber", "addr:street",
   "addr:city", "email", "opening_hours"]

/-- The tuple of low-value key namespaces that `should_include_element`
passes to `str.startswith` (convert_to_csv.py:53). -/
def noise_key_starts : List String :=
  ["source", "gnis", "wikidata", "wikipedia", "note", "fixme"]

/-- `should_include_element` (convert_to_csv.py:35): false when the element
has no tags; otherwise true as soon as one tag key is in `meaningful_keys`
or does not start with any member of `noise_key_starts`.  The `node_lookup`
argument is accepted and ignored, exactly as in the source. -/
def should_include_element (element : Element)
    (_node_lookup : Int → Option (Int × Int)) : Bool :=
  let tags := element.tags
  if tags.isEmpty then false
  else tags.any (fun kv =>
    meaningful_keys.contains kv.1
    || !(noise_key_starts.any (fun p => strStarts kv.1 p)))

/-- `get_element_coordinates` (convert_to_csv.py:60): nodes use their own
`lat`/`lon`; ways use the looked-up coordinates of the first entry of their
`nodes` list, `(none, none)` when the list is empty or the lookup misses;
any other type yields `(none, none)`. -/
def get_element_coordinates (element : Element)
    (node_lookup : Int → Option (Int × Int)) : Option Int × Option Int :=
  if element.type = some "node" then (element.lat, element.lon)
  else if element.type = some "way" then
    match element.nodes with
    | [] => (none, none)
    | n :: _ =>
        match node_lookup n with
        | some lat_lon => (some lat_lon.1, some lat_lon.2)
        | none => (none, none)
  else (none, none)

/-- `Option Int` as a row cell. -/
def optInt : Option Int → Val
  | some n => .int n
  | none => .null

/-- `Option String` as a row cell. -/
def optStr : Option String → Val
  | some s => .str s
  | none => .null

/-- `extract_element_data` (convert_to_csv.py:81): the fixed six columns
first (resolved coordinates, provenance, id, type), then every tag written
into the dict in order — a tag whose key equals a fixed column name
overwrites that column's value. -/
def extract_element_data (element : Element)
    (node_lookup : Int → Option (Int × Int))
    (query_purpose query_county : String) : Row :=
  let coords := get_element_coordinates element node_lookup
  let data_row : Row :=
    [("latitude", optInt coords.1),
     ("longitude", optInt coords.2),
     ("query_purpose", .str query_purpose),
     ("query_county", .str query_county),
     ("osm_id", optInt element.id),
     ("osm_type", optStr element.type)]
  element.tags.foldl (fun row kv => dictSet row kv.1 (.str kv.2)) data_row

/-- `process_json_file` (convert_to_csv.py:105) after the file has been
parsed into its `elements` list: build the node lookup, then one row per
element that `should_include_element` accepts, in order.  The enclosing
`try/except` turns any exception (a `KeyError` from `create_node_lookup`)
into an empty row list. -/
def process_json_file (elements : List Element)
    (query_purpose query_county : String) : List Row :=
  match create_node_lookup elements with
  | none => []
  | some node_lookup =>
      (elements.filter (fun e => should_include_element e node_lookup)).map
        (fun e => extract_element_data e node_lookup query_purpose query_county)

/-! ### String ordering

Python compares strings lexicographically by code point; `charListLe` is
that comparison on the character lists of two strings. -/

/-- Lexicographic-by-code-point `≤` on character lists. -/
def charListLe : List Char → List Char → Bool
  | [], _ => true
  | _ :: _, [] => false
  | a :: as, b :: bs =>
      if a.toNat < b.toNat then true
      else if b.toNat < a.toNat then false
      else charListLe as bs

/-- Python `a <= b` on strings. -/
def strLe (a b : String) : Bool := charListLe a.data b.data

theorem charListLe_total (a b : List Char) :
    charListLe a b = true ∨ charListLe b a = true := by
  induction a generalizing b with
  | nil => left; rfl
  | cons x xs ih =>
      cases b with
      | nil => right; rfl
      | cons y ys =>
          simp only [charListLe]
          rcases Nat.lt_trichotomy x.toNat y.toNat with h | h | h
          · left; simp [h]
          · have h1 : ¬ x.toNat < y.toNat := by omega
            have h2 : ¬ y.toNat < x.toNat := by omega
            rcases ih ys with hle | hle <;> [left; right] <;> simp [*]
          · right; simp [h, Nat.lt_asymm h]

theorem charListLe_trans : ∀ {a b c : List Char},
    charListLe a b = true → charListLe b c = true → charListLe a c = true := by
  intro a
  induction a with
  | nil => intro b c _ _; rfl
  | cons x xs ih =>
      intro b c h1 h2
      cases b with
      | nil => simp [charListLe] at h1
      | cons y ys =>
          cases c with
          | nil => simp [charListLe] at h2
          | cons z zs =>
              simp only [charListLe] at h1 h2 ⊢
              by_cases hxy : x.toNat < y.toNat
              · by_cases hyz : y.toNat < z.toNat
                · have hxz : x.toNat < z.toNat := Nat.lt_trans hxy hyz
                  simp [hxz]
                · by_cases hzy : z.toNat < y.toNat
                  · rw [if_neg hyz, if_pos hzy] at h2; exact absurd h2 (by simp)
                  · have hxz : x.toNat < z.toNat := by omega
                    simp [hxz]
              · by_cases hyx : y.toNat < x.toNat
                · rw [if_neg hxy, if_pos hyx] at h1; exact absurd h1 (by simp)
                · rw [if_neg hxy, if_neg hyx] at h1
                  by_cases hyz : y.toNat < z.toNat
                  · have hxz : x.toNat < z.toNat := by omega
                    simp [hxz]
                  · by_cases hzy : z.toNat < y.toNat
                    · rw [if_neg hyz, if_pos hzy] at h2; exact absurd h2 (by simp)
                    · rw [if_neg hyz, if_neg hzy] at h2
                      have hxz : ¬ x.toNat < z.toNat := by omega
                      have hzx : ¬ z.toNat < x.toNat := by omega
                      rw [if_neg hxz, if_neg hzx]
                      exact ih h1 h2

/-! ### Main-stage pipeline (convert_to_csv.py `main`)

The DataFrame `pd.DataFrame(all_data)` is modelled as a column list (the
union of the row keys in first-appearance order, as pandas builds it) plus
the rows themselves; a row's value in a column it lacks is `none` (NaN). -/

/-- A DataFrame: its column list and its rows. -/
structure DF where
  cols : List String
  rows : List Row
deriving DecidableEq

/-- Append the keys of `ks` that are not yet in `cols`, in order. -/
def addKeys (cols : List String) (ks : List String) : List String :=
  ks.foldl (fun cols k => if cols.contains k then cols else cols ++ [k]) cols

/-- The column list of `pd.DataFrame(rows)`: the union of all row keys in
order of first appearance. -/
def columnsOf (rows : List Row) : List String :=
  rows.foldl (fun cols r => addKeys cols (rowKeys r)) []

/-- The row predicate of the religion filter
(convert_to_csv.py:178): `~df_all['religion'].isin(['no', 'none'])` —
true unless the row's `religion` value is the string `"no"` or `"none"`
(a missing value is not in the `isin` list, so it is kept). -/
def religion_keep (r : Row) : Bool :=
  !(dictGet r "religion" == some (Val.str "no")
    || dictGet r "religion" == some (Val.str "none"))

/-- The religion row filter (convert_to_csv.py:177-179).  The source indexes
`df_all['religion']` unconditionally, which raises `KeyError` when no row of
the corpus carries a `religion` key; that exception is the `none` result. -/
def religion_filter_df (df : DF) : Option DF :=
  if df.cols.contains "religion" then
    some ⟨df.cols, df.rows.filter religion_keep⟩
  else none

/-- The five blank columns appended for manual enrichment
(convert_to_csv.py:182-186), in assignment order. -/
def blank_cols : List String :=
  ["Collaborated", "city", "person_with_relationship", "org_contact",
   "org_contact_title"]

/-- One row after the five blank-column assignments: each assignment
`df[c] = ''` writes the empty string into every row, overwriting any
existing value. -/
def add_blanks_row (r : Row) : Row :=
  blank_cols.foldl (fun r c => dictSet r c (.str "")) r

/-- The column list after the five blank-column assignments: an assignment
to a new column appends it, an assignment to an existing column leaves the
column list unchanged. -/
def add_blanks_cols (cols : List String) : List String :=
  blank_cols.foldl (fun cs c => if cs.contains c then cs else cs ++ [c]) cols

/-- The DataFrame after the five blank-column assignments
(convert_to_csv.py:182-186). -/
def add_blanks (df : DF) : DF :=
  ⟨add_blanks_cols df.cols, df.rows.map add_blanks_row⟩

/-- `priority_cols` (convert_to_csv.py:189). -/
def priority_cols : List String :=
  ["name", "Collaborated", "query_county", "city", "query_purpose",
   "person_with_relationship", "org_contact", "org_contact_title",
   "phone", "email", "contact:email", "website"]

/-- `remaining_base_cols` (convert_to_csv.py:190). -/
def remaining_base_cols : List String :=
  ["latitude", "longitude", "osm_id", "osm_type"]

/-- `other_cols` (convert_to_csv.py:191): every column not among the
priority or base columns, in DataFrame order. -/
def other_cols (cols : List String) : List String :=
  cols.filter (fun c => !((priority_cols ++ remaining_base_cols).contains c))

/-- The sort key `lambda x: (x.startswith('addr:'), x)` of
convert_to_csv.py:192, as a relation: `addr:`-prefixed names come after the
rest, ties broken by the code-point order on the names.  Distinct column
names never compare equal, so any sorted rearrangement equals Python's
stable `sorted`. -/
def colKeyLe (a b : String) : Prop :=
  (strStarts a "addr:" = false ∧ strStarts b "addr:" = true)
  ∨ (strStarts a "addr:" = strStarts b "addr:" ∧ strLe a b = true)

instance : DecidableRel colKeyLe := fun a b => by
  unfold colKeyLe; infer_instance

instance : IsTotal String colKeyLe where
  total a b := by
    unfold colKeyLe
    rcases charListLe_total a.data b.data with h | h <;>
      cases hfa : strStarts a "addr:" <;> cases hfb : strStarts b "addr:" <;>
      simp_all [strLe]

instance : IsTrans String colKeyLe where
  trans a b c h1 h2 := by
    unfold colKeyLe at h1 h2 ⊢
    rcases h1 with ⟨ha, hb⟩ | ⟨hab, hle1⟩ <;> rcases h2 with ⟨hb2, hc⟩ | ⟨hbc, hle2⟩
    · rw [hb] at hb2; exact absurd hb2 (by simp)
    · exact Or.inl ⟨ha, hbc ▸ hb⟩
    · exact Or.inl ⟨hab ▸ hb2, hc⟩
    · exact Or.inr ⟨hab.trans hbc, charListLe_trans hle1 hle2⟩

/-- `sorted(other_cols, key=lambda x: (x.startswith('addr:'), x))`. -/
def sortCols (l : List String) : List String := List.insertionSort colKeyLe l

/-- `col_order` (convert_to_csv.py:192). -/
def col_order (cols : List String) : List String :=
  priority_cols ++ remaining_base_cols ++ sortCols (other_cols cols)

/-- DataFrame column selection `df[order]`: the rows survive, the column
list becomes `order`.  The source's `group_df[col_order]` raises `KeyError`
when a requested column is absent; that exception is the `none` result. -/
def selectCols (df : DF) (order : List String) : Option DF :=
  if order.all (fun c => df.cols.contains c) then some ⟨order, df.rows⟩
  else none

/-- The `query_purpose` value of a row, when it is a string (the groupby
key; rows with a missing key are excluded from every group, as pandas
excludes NaN keys). -/
def rowPurpose (r : Row) : Option String :=
  match dictGet r "query_purpose" with
  | some (.str s) => some s
  | _ => none

/-- The group keys of `df_all.groupby('query_purpose')`: the distinct
`query_purpose` values in ascending order. -/
def purposesOf (rows : List Row) : List String :=
  List.insertionSort (fun a b => strLe a b = true) ((rows.filterMap rowPurpose).dedup)

/-- The rows of one groupby group, in their DataFrame order. -/
def group_rows (rows : List Row) (p : String) : List Row :=
  rows.filter (fun r => rowPurpose r == some p)

/-- A value that counts as empty for column pruning
(convert_to_csv.py:212): NaN (a missing value or a stored null) or the
empty string. -/
def empty_val : Option Val → Bool
  | none => true
  | some .null => true
  | some (.str "") => true
  | _ => false

/-- `columns_to_drop` for one group (convert_to_csv.py:210-213): the tag
columns present in the group that are empty in every row of the group. -/
def columns_to_drop (tag_columns : List String) (df : DF) : List String :=
  tag_columns.filter (fun c =>
    df.cols.contains c && df.rows.all (fun r => empty_val (dictGet r c)))

/-- One group after dropping its empty tag columns
(convert_to_csv.py:215-216). -/
def prune_group (tag_columns : List String) (df : DF) : DF :=
  let drop := columns_to_drop tag_columns df
  ⟨df.cols.filter (fun c => !drop.contains c), df.rows⟩

/-- The per-category branch of `main` (convert_to_csv.py:171-225), from the
accumulated `all_data` rows to the list of per-category tables, keyed by
`query_purpose`.  `none` models the runs that emit nothing by failing: an
empty corpus (the early return at lines 171-173), a `KeyError` from the
religion filter, and a `KeyError` from `group_df[col_order]`.  The latter's
success condition, `col_order ⊆ df.cols`, does not depend on the group, so
when any group exists the source fails already on the first one (before
writing any file); when no group exists (every row was filtered away) the
selection never runs and the run emits zero tables.  Row sorting
(`sort_values`) permutes the rows of each table only and is not modelled;
no property below concerns row order. -/
def mainSeparate (all_data : List Row) : Option (List (String × DF)) :=
  if all_data = [] then none
  else
    (religion_filter_df ⟨columnsOf all_data, all_data⟩).bind (fun df1 =>
      let df2 := add_blanks df1
      let order := col_order df2.cols
      if purposesOf df2.rows = []
          ∨ order.all (fun c => df2.cols.contains c) then
        some ((purposesOf df2.rows).map (fun p =>
          (p, prune_group (other_cols df2.cols) ⟨order, group_rows df2.rows p⟩)))
      else none)

/-! ### Retriever (query_osm.py `query_overpass`) -/

/-- What one HTTP attempt produces: a response with a status code and a
parsed JSON body, or a transport-level exception. -/
inductive HttpOutcome (α : Type) where
  | resp (status : Nat) (body : α)
  | exc
deriving DecidableEq

/-- The retry loop of `query_overpass` (query_osm.py:64-88), with `fuel`
attempts remaining.  Returns the result (`none` for every failure path; the
function never raises) and the list of back-off sleeps performed, in
seconds.  A retryable HTTP status (>= 500 or 429) sleeps `2 ** attempt`
even on the last attempt; a transport exception on the last attempt breaks
without sleeping (query_osm.py:82-88). -/
def query_overpass_go (responses : Nat → HttpOutcome α) :
    Nat → Nat → Option α × List Nat
  | 0, _ => (none, [])
  | fuel + 1, attempt =>
      match responses attempt with
      | .resp s b =>
          if s = 200 then (some b, [])
          else if 500 ≤ s ∨ s = 429 then
            let rest := query_overpass_go responses fuel (attempt + 1)
            (rest.1, 2 ^ attempt :: rest.2)
          else (none, [])
      | .exc =>
          if fuel = 0 then (none, [])
          else
            let rest := query_overpass_go responses fuel (attempt + 1)
            (rest.1, 2 ^ attempt :: rest.2)

/-- `query_overpass` (query_osm.py:60): run the attempt loop from attempt 0
with `max_retries` attempts available, against the sequence of outcomes the
network will produce. -/
def query_overpass (responses : Nat → HttpOutcome α) (max_retries : Nat) :
    Option α × List Nat :=
  query_overpass_go responses max_retries 0

/-! ### Concrete corpora

Small corpora used below as witnesses and counterexamples. -/

/-- A node element carrying every tag-derived priority column (`name`,
`phone`, `email`, `contact:email`, `website`), a `religion` tag, and a tag
`foo` whose value is the empty string. -/
def elemFull : Element :=
  { type := some "node", id := some 10, lat := some 1, lon := some 2,
    tags := [("name", "A"), ("amenity", "theatre"), ("phone", "1"),
             ("email", "e"), ("contact:email", "c"), ("website", "w"),
             ("religion", "christian"), ("foo", "")],
    nodes := [] }

/-- The one-document corpus of `elemFull`, category `parks`, region `A`. -/
def wData : List Row := process_json_file [elemFull] "parks" "A"

/-- The `parks` table `mainSeparate wData` produces (checked below). -/
def wParksTable : DF :=
  { cols := ["name", "Collaborated", "query_county", "city",
             "query_purpose", "person_with_relationship", "org_contact",
             "org_contact_title", "phone", "email", "contact:email",
             "website", "latitude", "longitude", "osm_id", "osm_type",
             "amenity", "religion"],
    rows := [[("latitude", Val.int 1), ("longitude", Val.int 2),
              ("query_purpose", Val.str "parks"),
              ("query_county", Val.str "A"), ("osm_id", Val.int 10),
              ("osm_type", Val.str "node"), ("name", Val.str "A"),
              ("amenity", Val.str "theatre"), ("phone", Val.str "1"),
              ("email", Val.str "e"), ("contact:email", Val.str "c"),
              ("website", Val.str "w"), ("religion", Val.str "christian"),
              ("foo", Val.str ""), ("Collaborated", Val.str ""),
              ("city", Val.str ""),
              ("person_with_relationship", Val.str ""),
              ("org_contact", Val.str ""),
              ("org_contact_title", Val.str "")]] }

/-- The table list `mainSeparate wData` produces (checked below). -/
def wOut : List (String × DF) := [("parks", wParksTable)]

/-- A node element with no `religion` tag anywhere in its corpus. -/
def elemNoReligion : Element :=
  { type := some "node", id := some 11, lat := some 1, lon := some 2,
    tags := [("name", "B")], nodes := [] }

/-- A corpus whose records carry no `religion` tag at all. -/
def wDataNoReligion : List Row := process_json_file [elemNoReligion] "parks" "A"

/-- A node element with a `religion` tag but no `contact:email` tag. -/
def elemNoContact : Element :=
  { type := some "node", id := some 12, lat := some 1, lon := some 2,
    tags := [("name", "C"), ("phone", "1"), ("email", "e"), ("website", "w"),
             ("religion", "x")], nodes := [] }

/-- A corpus in which the priority-listed tag key `contact:email` occurs
nowhere. -/
def wDataNoContact : List Row := process_json_file [elemNoContact] "parks" "A"

/-- A DataFrame with a `religion` column whose rows exercise the values
`"no"`, `"none"`, another value, and a missing value. -/
def wReligionDF : DF :=
  ⟨["religion"],
    [[("religion", Val.str "no")], [("religion", Val.str "none")],
     [("religion", Val.str "x")], []]⟩

/-- A `religion`-category element whose tag `foo` is populated. -/
def elemRel : Element :=
  { type := some "node", id := some 20, lat := some 3, lon := some 4,
    tags := [("name", "R"), ("phone", "1"), ("email", "e"),
             ("contact:email", "c"), ("website", "w"),
             ("religion", "christian"), ("foo", "X")],
    nodes := [] }

/-- A `bookstores`-category element without the tag `foo`. -/
def elemBook : Element :=
  { type := some "node", id := some 21, lat := some 5, lon := some 6,
    tags := [("name", "B"), ("shop", "books")], nodes := [] }

/-- A two-category corpus: the `foo` column is empty in every `bookstores`
row and populated in a `religion` row. -/
def wData2 : List Row :=
  process_json_file [elemRel] "religion" "A"
    ++ process_json_file [elemBook] "bookstores" "A"

/-- The `bookstores` table `mainSeparate wData2` produces (checked below):
the all-empty tag column `foo` has been dropped. -/
def wBookTable : DF :=
  { cols := ["name", "Collaborated", "query_county", "city",
             "query_purpose", "person_with_relationship", "org_contact",
             "org_contact_title", "phone", "email", "contact:email",
             "website", "latitude", "longitude", "osm_id", "osm_type",
             "shop"],
    rows := [[("latitude", Val.int 5), ("longitude", Val.int 6),
              ("query_purpose", Val.str "bookstores"),
              ("query_county", Val.str "A"), ("osm_id", Val.int 21),
              ("osm_type", Val.str "node"), ("name", Val.str "B"),
              ("shop", Val.str "books"), ("Collaborated", Val.str ""),
              ("city", Val.str ""),
              ("person_with_relationship", Val.str ""),
              ("org_contact", Val.str ""),
              ("org_contact_title", Val.str "")]] }

/-- The `religion` table `mainSeparate wData2` produces (checked below):
the tag column `foo` is kept, populated in its row. -/
def wRelTable : DF :=
  { cols := ["name", "Collaborated", "query_county", "city",
             "query_purpose", "person_with_relationship", "org_contact",
             "org_contact_title", "phone", "email", "contact:email",
             "website", "latitude", "longitude", "osm_id", "osm_type",
             "foo", "religion"],
    rows := [[("latitude", Val.int 3), ("longitude", Val.int 4),
              ("query_purpose", Val.str "religion"),
              ("query_county", Val.str "A"), ("osm_id", Val.int 20),
              ("osm_type", Val.str "node"), ("name", Val.str "R"),
              ("phone", Val.str "1"), ("email", Val.str "e"),
              ("contact:email", Val.str "c"), ("website", Val.str "w"),
              ("religion", Val.str "christian"), ("foo", Val.str "X"),
              ("Collaborated", Val.str ""), ("city", Val.str ""),
              ("person_with_relationship", Val.str ""),
              ("org_contact", Val.str ""),
              ("org_contact_title", Val.str "")]] }

/-- The table list `mainSeparate wData2` produces (checked below). -/
def wOut2 : List (String × DF) :=
  [("bookstores", wBookTable), ("religion", wRelTable)]

/-- The document of the §8 scenario holding one meaningful `Point` at
(1, 2) tagged `amenity=theatre`. -/
def docPoint : List Element :=
  [{ type := some "node", id := some 10, lat := some 1, lon := some 2,
     tags := [("amenity", "theatre")], nodes := [] }]

/-- The sibling document of the §8 scenario: a tagless `Way` whose first
node is a geometry-only point at (3, 4) tagged only `source=survey`. -/
def docWay : List Element :=
  [{ type := some "way", id := some 20, lat := none, lon := none,
     tags := [], nodes := [1] },
   { type := some "node", id := some 1, lat := some 3, lon := some 4,
     tags := [("source", "survey")], nodes := [] }]

/-- The one row the §8 scenario emits: the `Point`, with latitude 1,
longitude 2, type `node` (checked below). -/
def pointRow : Row :=
  [("latitude", Val.int 1), ("longitude", Val.int 2),
   ("query_purpose", Val.str "parks"), ("query_county", Val.str "A"),
   ("osm_id", Val.int 10), ("osm_type", Val.str "node"),
   ("amenity", Val.str "theatre")]

/-! ### Dictionary and column lemmas -/

theorem contains_iff {l : List String} {a : String} :
    l.contains a = true ↔ a ∈ l := by
  simp [List.contains, List.elem_iff]

theorem dictGet_dictSet_self (d : Row) (k : String) (v : Val) :
    dictGet (dictSet d k v) k = some v := by
  induction d with
  | nil => simp [dictSet, dictGet]
  | cons kv rest ih =>
      by_cases h : kv.1 = k
      · simp [dictSet, dictGet, h]
      · simp [dictSet, dictGet, h, ih]

theorem dictGet_dictSet_ne (d : Row) {k k' : String} (v : Val) (h : k' ≠ k) :
    dictGet (dictSet d k v) k' = dictGet d k' := by
  have hne : ¬ k = k' := fun hh => h hh.symm
  induction d with
  | nil => simp only [dictSet, dictGet]; rw [if_neg hne]
  | cons kv rest ih =>
      simp only [dictSet]
      by_cases hk : kv.1 = k
      · rw [if_pos hk]
        simp only [dictGet]
        rw [if_neg hne, if_neg (by rw [hk]; exact hne)]
      · rw [if_neg hk]
        simp only [dictGet]
        by_cases hk' : kv.1 = k'
        · rw [if_pos hk', if_pos hk']
        · rw [if_neg hk', if_neg hk', ih]

theorem dictGet_eq_none_iff {r : Row} {k : String} :
    dictGet r k = none ↔ k ∉ rowKeys r := by
  induction r with
  | nil => simp [dictGet, rowKeys]
  | cons kv rest ih =>
      by_cases h : kv.1 = k
      · simp [dictGet, rowKeys, h]
      · have hne : ¬ k = kv.1 := fun hh => h hh.symm
        simp only [dictGet, if_neg h, rowKeys, List.map_cons, List.mem_cons,
          not_or]
        rw [ih]
        simp [rowKeys, hne]

/-- Folding blank-column assignments over keys not containing `k` leaves the
value of `k` unchanged. -/
theorem dictGet_foldl_const {l : List String} {v : Val} {r : Row} {k : String}
    (h : k ∉ l) :
    dictGet (l.foldl (fun r c => dictSet r c v) r) k = dictGet r k := by
  induction l generalizing r with
  | nil => rfl
  | cons c cs ih =>
      simp only [List.mem_cons, not_or] at h
      rw [List.foldl_cons, ih h.2, dictGet_dictSet_ne _ _ h.1]

/-- Folding tag assignments over tags without key `k` leaves the value of
`k` unchanged. -/
theorem dictGet_tagFold_not_mem {tags : List (String × String)} {r : Row}
    {k : String} (h : k ∉ tags.map Prod.fst) :
    dictGet (tags.foldl (fun row kv => dictSet row kv.1 (.str kv.2)) r) k
      = dictGet r k := by
  induction tags generalizing r with
  | nil => rfl
  | cons kv rest ih =>
      simp only [List.map_cons, List.mem_cons, not_or] at h
      rw [List.foldl_cons, ih h.2, dictGet_dictSet_ne _ _ h.1]

/-- Folding tag assignments writes each tag's value, verbatim, under its
key (unique keys: the tags come from a Python dict). -/
theorem dictGet_tagFold_mem {tags : List (String × String)} {r : Row}
    {k v : String} (hnd : (tags.map Prod.fst).Nodup) (hm : (k, v) ∈ tags) :
    dictGet (tags.foldl (fun row kv => dictSet row kv.1 (.str kv.2)) r) k
      = some (.str v) := by
  induction tags generalizing r with
  | nil => cases hm
  | cons kv rest ih =>
      simp only [List.map_cons, List.nodup_cons] at hnd
      rcases List.mem_cons.mp hm with heq | hmem
      · subst heq
        rw [List.foldl_cons, dictGet_tagFold_not_mem hnd.1,
          dictGet_dictSet_self]
      · have : k ∈ rest.map Prod.fst := List.mem_map.mpr ⟨(k, v), hmem, rfl⟩
        rw [List.foldl_cons]
        exact ih hnd.2 hmem

theorem mem_addKeys {ks : List String} {cols : List String} {a : String} :
    a ∈ addKeys cols ks ↔ a ∈ cols ∨ a ∈ ks := by
  induction ks generalizing cols with
  | nil => simp [addKeys]
  | cons k rest ih =>
      show a ∈ addKeys (if cols.contains k then cols else cols ++ [k]) rest ↔ _
      rw [ih]
      by_cases h : cols.contains k
      · rw [if_pos h]
        have hk : k ∈ cols := contains_iff.mp h
        constructor
        · rintro (h' | h') <;> simp [h']
        · rintro (h' | h') <;> simp_all
          rcases h' with h' | h' <;> simp_all
      · rw [if_neg h]
        simp only [List.mem_append, List.mem_singleton, List.mem_cons]
        tauto

theorem mem_columnsOf_foldl {rows : List Row} {cols : List String} {a : String} :
    a ∈ rows.foldl (fun cols r => addKeys cols (rowKeys r)) cols
      ↔ a ∈ cols ∨ ∃ r ∈ rows, a ∈ rowKeys r := by
  induction rows generalizing cols with
  | nil => simp
  | cons r rest ih =>
      rw [List.foldl_cons, ih, mem_addKeys]
      simp only [List.mem_cons]
      constructor
      · rintro ((h | h) | ⟨r', hr', ha⟩)
        · exact Or.inl h
        · exact Or.inr ⟨r, Or.inl rfl, h⟩
        · exact Or.inr ⟨r', Or.inr hr', ha⟩
      · rintro (h | ⟨r', hr' | hr', ha⟩)
        · exact Or.inl (Or.inl h)
        · exact Or.inl (Or.inr (hr' ▸ ha))
        · exact Or.inr ⟨r', hr', ha⟩

theorem mem_columnsOf {rows : List Row} {a : String} :
    a ∈ columnsOf rows ↔ ∃ r ∈ rows, a ∈ rowKeys r := by
  rw [columnsOf, mem_columnsOf_foldl]
  simp

theorem mem_add_blanks_cols {cols : List String} {a : String} :
    a ∈ add_blanks_cols cols ↔ a ∈ cols ∨ a ∈ blank_cols := by
  have : add_blanks_cols cols = addKeys cols blank_cols := rfl
  rw [this, mem_addKeys]

/-- A key outside the five blank columns reads the same value before and
after the blank-column assignments. -/
theorem dictGet_add_blanks_row {r : Row} {k : String} (h : k ∉ blank_cols) :
    dictGet (add_blanks_row r) k = dictGet r k :=
  dictGet_foldl_const h

/-! ### Inclusion filter: claims C1 and C10 -/

/-- The inclusion decision, as a predicate on the element's tag keys alone:
the element is included exactly when some tag key is in the allow-set or
fails to start with every noise namespace. -/
theorem should_include_eq_true_iff (e : Element)
    (nl : Int → Option (Int × Int)) :
    should_include_element e nl = true ↔
      ∃ k ∈ e.tags.map Prod.fst,
        k ∈ meaningful_keys
        ∨ ∀ p ∈ noise_key_starts, strStarts k p = false := by
  unfold should_include_element
  by_cases h : e.tags.isEmpty
  · rw [if_pos h]
    rw [List.isEmpty_iff] at h
    simp [h]
  · rw [if_neg h]
    simp only [List.any_eq_true, Bool.or_eq_true, Bool.not_eq_true',
      List.any_eq_false, contains_iff, Bool.not_eq_true]
    constructor
    · rintro ⟨kv, hkv, hP⟩
      exact ⟨kv.1, List.mem_map.mpr ⟨kv, hkv, rfl⟩, hP⟩
    · rintro ⟨k, hk, hP⟩
      rcases List.mem_map.mp hk with ⟨kv, hkv, rfl⟩
      exact ⟨kv, hkv, hP⟩

/-- Claim C1: `should_include_element` returns false on an empty tag
mapping, and otherwise returns true exactly when some tag key is in the
fixed allow-set or does not start with any of the fixed noise prefixes
(equivalently, a record is excluded exactly when every tag key is outside
the allow-set and starts with a noise prefix). -/
theorem isMeaningful_spec (e : Element) (nl : Int → Option (Int × Int)) :
    (e.tags = [] → should_include_element e nl = false)
    ∧ (should_include_element e nl = true ↔
        e.tags ≠ [] ∧ ∃ kv ∈ e.tags,
          kv.1 ∈ (["name", "amenity", "shop", "building", "leisure",
                    "religion", "phone", "website", "addr:housenumber",
                    "addr:street", "addr:city", "email",
                    "opening_hours"] : List String)
          ∨ ∀ p ∈ (["source", "gnis", "wikidata", "wikipedia", "note",
                    "fixme"] : List String), strStarts kv.1 p = false) := by
  constructor
  · intro h
    unfold should_include_element
    rw [if_pos (List.isEmpty_iff.mpr h)]
  · rw [should_include_eq_true_iff]
    constructor
    · rintro ⟨k, hk, hP⟩
      rcases List.mem_map.mp hk with ⟨kv, hkv, rfl⟩
      refine ⟨fun heq => ?_, ⟨kv, hkv, hP⟩⟩
      rw [heq] at hkv
      cases hkv
    · rintro ⟨-, kv, hkv, hP⟩
      exact ⟨kv.1, List.mem_map.mpr ⟨kv, hkv, rfl⟩, hP⟩

/-- Claim C10: the inclusion decision depends only on the set of tag keys —
the node-lookup argument is immaterial, and any two elements with the same
tag-key sets (whatever their values, coordinates, id or type) receive the
same decision. -/
theorem inclusion_depends_only_on_tag_keys (e1 e2 : Element)
    (nl1 nl2 : Int → Option (Int × Int))
    (h : ∀ k, k ∈ e1.tags.map Prod.fst ↔ k ∈ e2.tags.map Prod.fst) :
    should_include_element e1 nl1 = should_include_element e2 nl2 := by
  have h12 : should_include_element e1 nl1 = true
      ↔ should_include_element e2 nl2 = true := by
    rw [should_include_eq_true_iff, should_include_eq_true_iff]
    constructor
    · rintro ⟨k, hk, hP⟩; exact ⟨k, (h k).mp hk, hP⟩
    · rintro ⟨k, hk, hP⟩; exact ⟨k, (h k).mpr hk, hP⟩
  cases hb1 : should_include_element e1 nl1 <;>
    cases hb2 : should_include_element e2 nl2 <;> simp_all

/-- Witness for claim C10 at concrete inputs: two elements whose tag
mappings hold the same keys with different values and in a different order,
and two different node lookups, get the same decision. -/
theorem inclusion_depends_only_on_tag_keys_witness :
    (∀ k : String, k ∈ ([("source:a", "1"), ("name", "x")] :
          List (String × String)).map Prod.fst
        ↔ k ∈ ([("name", "y"), ("source:a", "2")] :
          List (String × String)).map Prod.fst)
    ∧ should_include_element
        ⟨some "node", some 1, some 1, some 2, [("source:a", "1"), ("name", "x")], []⟩
        (fun _ => none)
      = should_include_element
        ⟨some "way", some 2, none, none, [("name", "y"), ("source:a", "2")], [5]⟩
        (fun _ => some (0, 0)) := by
  have h : ∀ k : String, k ∈ ([("source:a", "1"), ("name", "x")] :
        List (String × String)).map Prod.fst
      ↔ k ∈ ([("name", "y"), ("source:a", "2")] :
        List (String × String)).map Prod.fst := by
    intro k
    constructor <;> intro hk <;> simp at hk ⊢ <;> tauto
  exact ⟨h, inclusion_depends_only_on_tag_keys _ _ _ _ h⟩

/-! ### Geometry resolution: claim C2 -/

/-- Claim C2: coordinate resolution — a node record yields its own lat/lon
(possibly absent); a way record yields the looked-up coordinates of the
first entry of its node sequence, and null/null when the sequence is empty
or the lookup misses; any other type yields null/null. -/
theorem resolveCoordinates_spec (e : Element)
    (nl : Int → Option (Int × Int)) :
    (e.type = some "node" → get_element_coordinates e nl = (e.lat, e.lon))
    ∧ (e.type = some "way" →
        (e.nodes = [] → get_element_coordinates e nl = (none, none))
        ∧ ∀ n rest, e.nodes = n :: rest →
            (∀ la lo, nl n = some (la, lo) →
                get_element_coordinates e nl = (some la, some lo))
            ∧ (nl n = none → get_element_coordinates e nl = (none, none)))
    ∧ (e.type ≠ some "node" → e.type ≠ some "way" →
        get_element_coordinates e nl = (none, none)) := by
  refine ⟨fun h => ?_, fun h => ?_, fun h1 h2 => ?_⟩
  · simp [get_element_coordinates, h]
  · refine ⟨fun hn => ?_, fun n rest hn => ⟨fun la lo hl => ?_, fun hl => ?_⟩⟩
    · simp [get_element_coordinates, h, hn]
    · simp [get_element_coordinates, h, hn, hl]
    · simp [get_element_coordinates, h, hn, hl]
  · simp [get_element_coordinates, h1, h2]

/-! ### Row extraction: claim C9 -/

/-- Claim C9: a tag whose key equals one of the six fixed row field names
overwrites the fixed field's value in the extracted row, because the tags
are written into the dict after the fixed fields. -/
theorem tags_overwrite_fixed_columns (e : Element)
    (nl : Int → Option (Int × Int)) (p c : String) (k v : String)
    (hnd : (e.tags.map Prod.fst).Nodup) (hkv : (k, v) ∈ e.tags)
    (_hfix : k ∈ (["latitude", "longitude", "query_purpose", "query_county",
                   "osm_id", "osm_type"] : List String)) :
    dictGet (extract_element_data e nl p c) k = some (.str v) :=
  dictGet_tagFold_mem hnd hkv

/-- Witness for claim C9: a tag literally named `latitude` replaces the
resolved latitude in the extracted row. -/
theorem tags_overwrite_fixed_columns_witness :
    ((([("latitude", "99")] : List (String × String)).map Prod.fst).Nodup
      ∧ (("latitude", "99") ∈ ([("latitude", "99")] : List (String × String)))
      ∧ "latitude" ∈ (["latitude", "longitude", "query_purpose",
          "query_county", "osm_id", "osm_type"] : List String))
    ∧ dictGet (extract_element_data
        ⟨some "node", some 7, some 3, some 4, [("latitude", "99")], []⟩
        (fun _ => none) "parks" "A") "latitude" = some (.str "99") :=
  ⟨⟨by decide, by decide, by decide⟩,
    tags_overwrite_fixed_columns _ _ _ _ _ _ (by decide) (by decide) (by decide)⟩

/-! ### Religion row filter: claim C4 -/

/-- Inversion of the religion filter's success case. -/
theorem religion_filter_df_eq_some {df out : DF} :
    religion_filter_df df = some out ↔
      "religion" ∈ df.cols ∧ out = ⟨df.cols, df.rows.filter religion_keep⟩ := by
  unfold religion_filter_df
  by_cases h : df.cols.contains "religion"
  · rw [if_pos h]
    simp [contains_iff.mp h, eq_comm]
  · rw [if_neg h]
    have hnm : ¬ "religion" ∈ df.cols := fun hm => h (contains_iff.mpr hm)
    simp [hnm]

/-- Claim C4 counterexample: on a corpus whose rows carry no `religion` key
at all, the filter raises `KeyError` (and the whole run emits nothing)
instead of retaining the rows. -/
theorem religion_filter_counterexample :
    religion_filter_df ⟨columnsOf wDataNoReligion, wDataNoReligion⟩ = none
    ∧ wDataNoReligion ≠ []
    ∧ mainSeparate wDataNoReligion = none := by
  refine ⟨by decide, by decide, by decide⟩

/-- Claim C4 amended: provided at least one row of the corpus carries the
`religion` key (so the column exists), the filter drops exactly the rows
whose religion value is the string `"no"` or `"none"` and retains every
other row, rows lacking the key included. -/
theorem religion_filter_amended (df : DF) (h : "religion" ∈ df.cols) :
    ∃ out, religion_filter_df df = some out ∧ out.cols = df.cols
      ∧ ∀ r, r ∈ out.rows ↔ r ∈ df.rows
          ∧ dictGet r "religion" ≠ some (.str "no")
          ∧ dictGet r "religion" ≠ some (.str "none") := by
  refine ⟨⟨df.cols, df.rows.filter religion_keep⟩,
    religion_filter_df_eq_some.mpr ⟨h, rfl⟩, rfl, fun r => ?_⟩
  rw [List.mem_filter]
  unfold religion_keep
  simp [and_assoc]

/-- Witness for claim C4 at a concrete DataFrame whose rows exercise the
religion values `"no"`, `"none"`, `"x"` and a missing value. -/
theorem religion_filter_amended_witness :
    "religion" ∈ wReligionDF.cols
    ∧ ∃ out, religion_filter_df wReligionDF = some out
        ∧ out.cols = wReligionDF.cols
        ∧ ∀ r, r ∈ out.rows ↔ r ∈ wReligionDF.rows
            ∧ dictGet r "religion" ≠ some (.str "no")
            ∧ dictGet r "religion" ≠ some (.str "none") :=
  ⟨by decide, religion_filter_amended wReligionDF (by decide)⟩

/-! ### Column order: claim C5 -/

/-- Claim C5 counterexample: when the priority-listed tag key
`contact:email` occurs nowhere in the corpus, `df[col_order]` raises
`KeyError` and the run emits nothing — there is no final column order —
even though the religion filter succeeds on this corpus. -/
theorem col_order_counterexample :
    mainSeparate wDataNoContact = none
    ∧ wDataNoContact ≠ []
    ∧ (religion_filter_df ⟨columnsOf wDataNoContact, wDataNoContact⟩).isSome
        = true
    ∧ "contact:email" ∉ columnsOf wDataNoContact := by
  refine ⟨by decide, by decide, by decide, by decide⟩

/-- Claim C5 amended: provided every priority and geometry/id column is
among the DataFrame's columns, the column selection succeeds and the final
order is the fixed priority prefix, the fixed geometry/id columns, then the
remaining columns rearranged so that non-`addr:` names precede `addr:`
names, in code-point order within each group; the order is a function of
the column set, hence deterministic. -/
theorem col_order_amended (cols : List String) (rows : List Row)
    (hp : ∀ c ∈ priority_cols, c ∈ cols)
    (hb : ∀ c ∈ remaining_base_cols, c ∈ cols) :
    ∃ rest, selectCols ⟨cols, rows⟩ (col_order cols) = some ⟨col_order cols, rows⟩
      ∧ col_order cols = priority_cols ++ remaining_base_cols ++ rest
      ∧ List.Perm rest (other_cols cols)
      ∧ List.Pairwise colKeyLe rest
      ∧ priority_cols = ["name", "Collaborated", "query_county", "city",
          "query_purpose", "person_with_relationship", "org_contact",
          "org_contact_title", "phone", "email", "contact:email", "website"]
      ∧ remaining_base_cols = ["latitude", "longitude", "osm_id", "osm_type"]
      ∧ ∀ a b : String, colKeyLe a b ↔
          ((strStarts a "addr:" = false ∧ strStarts b "addr:" = true)
            ∨ (strStarts a "addr:" = strStarts b "addr:"
                ∧ strLe a b = true)) := by
  refine ⟨sortCols (other_cols cols), ?_, rfl,
    List.perm_insertionSort _ _, List.sorted_insertionSort _ _,
    rfl, rfl, fun a b => Iff.rfl⟩
  unfold selectCols
  rw [if_pos ?_]
  rw [List.all_eq_true]
  intro c hc
  rw [contains_iff]
  rcases List.mem_append.mp hc with hc | hc
  · rcases List.mem_append.mp hc with hc | hc
    · exact hp c hc
    · exact hb c hc
  · have : c ∈ other_cols cols :=
      (List.perm_insertionSort colKeyLe (other_cols cols)).mem_iff.mp hc
    exact (List.mem_filter.mp this).1

/-- Witness for claim C5 at the concrete column set of the `wData`
pipeline, which contains every priority and geometry/id column. -/
theorem col_order_amended_witness :
    ((∀ c ∈ priority_cols, c ∈ add_blanks_cols (columnsOf wData))
      ∧ (∀ c ∈ remaining_base_cols, c ∈ add_blanks_cols (columnsOf wData)))
    ∧ ∃ rest, selectCols ⟨add_blanks_cols (columnsOf wData), wData⟩
          (col_order (add_blanks_cols (columnsOf wData)))
        = some ⟨col_order (add_blanks_cols (columnsOf wData)), wData⟩
      ∧ col_order (add_blanks_cols (columnsOf wData))
          = priority_cols ++ remaining_base_cols ++ rest
      ∧ List.Perm rest (other_cols (add_blanks_cols (columnsOf wData)))
      ∧ List.Pairwise colKeyLe rest
      ∧ priority_cols = ["name", "Collaborated", "query_county", "city",
          "query_purpose", "person_with_relationship", "org_contact",
          "org_contact_title", "phone", "email", "contact:email", "website"]
      ∧ remaining_base_cols = ["latitude", "longitude", "osm_id", "osm_type"]
      ∧ ∀ a b : String, colKeyLe a b ↔
          ((strStarts a "addr:" = false ∧ strStarts b "addr:" = true)
            ∨ (strStarts a "addr:" = strStarts b "addr:"
                ∧ strLe a b = true)) :=
  ⟨⟨by decide, by decide⟩,
    col_order_amended (add_blanks_cols (columnsOf wData)) wData
      (by decide) (by decide)⟩

/-! ### Per-category table assembly: inversion of `mainSeparate` -/

theorem contains_eq_false_iff {l : List String} {a : String} :
    l.contains a = false ↔ a ∉ l := by
  rw [Bool.eq_false_iff]
  exact not_congr contains_iff

theorem mem_other_cols {cols : List String} {c : String} :
    c ∈ other_cols cols
      ↔ c ∈ cols ∧ c ∉ priority_cols ∧ c ∉ remaining_base_cols := by
  unfold other_cols
  rw [List.mem_filter, Bool.not_eq_true', contains_eq_false_iff,
    List.mem_append, not_or]

theorem mem_col_order {cols : List String} {c : String} :
    c ∈ col_order cols
      ↔ c ∈ priority_cols ∨ c ∈ remaining_base_cols ∨ c ∈ other_cols cols := by
  unfold col_order sortCols
  rw [List.append_assoc, List.mem_append, List.mem_append,
    (List.perm_insertionSort colKeyLe _).mem_iff]

theorem prune_group_rows (t : List String) (df : DF) :
    (prune_group t df).rows = df.rows := rfl

theorem mem_prune_group_cols {t : List String} {df : DF} {c : String} :
    c ∈ (prune_group t df).cols ↔
      c ∈ df.cols
      ∧ ¬(c ∈ t ∧ df.rows.all (fun r => empty_val (dictGet r c)) = true) := by
  unfold prune_group columns_to_drop
  constructor
  · intro h
    rw [List.mem_filter, Bool.not_eq_true', contains_eq_false_iff] at h
    obtain ⟨h1, h2⟩ := h
    refine ⟨h1, fun hh => h2 (List.mem_filter.mpr ⟨hh.1, ?_⟩)⟩
    rw [Bool.and_eq_true]
    exact ⟨contains_iff.mpr h1, hh.2⟩
  · rintro ⟨h1, h2⟩
    rw [List.mem_filter, Bool.not_eq_true', contains_eq_false_iff]
    refine ⟨h1, fun hmem => ?_⟩
    rw [List.mem_filter, Bool.and_eq_true] at hmem
    exact h2 ⟨hmem.1, hmem.2.2⟩

/-- What a successful `mainSeparate` run produced: one table per purpose,
each the pruned, reordered group of the religion-filtered, blank-extended
rows; and the corpus necessarily had a `religion` column. -/
theorem mainSeparate_inv {all_data : List Row} {out : List (String × DF)}
    (h : mainSeparate all_data = some out) :
    out = (purposesOf ((all_data.filter religion_keep).map add_blanks_row)).map
      (fun p => (p,
        prune_group (other_cols (add_blanks_cols (columnsOf all_data)))
          ⟨col_order (add_blanks_cols (columnsOf all_data)),
           group_rows ((all_data.filter religion_keep).map add_blanks_row) p⟩))
    ∧ "religion" ∈ columnsOf all_data := by
  unfold mainSeparate at h
  by_cases hne : all_data = []
  · rw [if_pos hne] at h; cases h
  · rw [if_neg hne, Option.bind_eq_some] at h
    obtain ⟨df1, h1, h2⟩ := h
    rw [religion_filter_df_eq_some] at h1
    obtain ⟨hrel, rfl⟩ := h1
    dsimp only at h2
    split at h2
    · injection h2 with h2
      exact ⟨h2.symm, hrel⟩
    · cases h2

/-! ### Empty-column pruning: claim C6 -/

/-- Claim C6: in per-category mode, each table independently drops a
non-fixed tag column exactly when its value is empty (missing or the empty
string) in every row of that table; the fixed priority (and provenance) and
geometry/id columns are never dropped.  Instantiating `pt` at two different
tables of `out` gives the cross-category independence: a column empty in
one category's table and populated in another's is dropped from the first
and kept in the second. -/
theorem per_category_pruning (all_data : List Row) (out : List (String × DF))
    (h : mainSeparate all_data = some out) (pt : String × DF) (hpt : pt ∈ out)
    (c : String) :
    (c ∈ other_cols (add_blanks_cols (columnsOf all_data)) →
        (c ∉ pt.2.cols ↔ ∀ r ∈ pt.2.rows, empty_val (dictGet r c) = true))
    ∧ ((c ∈ priority_cols ∨ c ∈ remaining_base_cols) → c ∈ pt.2.cols) := by
  obtain ⟨hout, -⟩ := mainSeparate_inv h
  subst hout
  rcases List.mem_map.mp hpt with ⟨p, -, rfl⟩
  constructor
  · intro hc
    have hord : c ∈ col_order (add_blanks_cols (columnsOf all_data)) :=
      mem_col_order.mpr (Or.inr (Or.inr hc))
    have key : c ∉ (prune_group (other_cols (add_blanks_cols (columnsOf all_data)))
          ⟨col_order (add_blanks_cols (columnsOf all_data)),
           group_rows ((all_data.filter religion_keep).map add_blanks_row) p⟩).cols
        ↔ (group_rows ((all_data.filter religion_keep).map add_blanks_row) p).all
            (fun r => empty_val (dictGet r c)) = true := by
      rw [mem_prune_group_cols]
      constructor
      · intro hno
        by_contra hnall
        exact hno ⟨hord, fun hh => hnall hh.2⟩
      · rintro hall ⟨-, h2⟩
        exact h2 ⟨hc, hall⟩
    rw [List.all_eq_true] at key
    exact key
  · intro hfixed
    rw [mem_prune_group_cols]
    have hord : c ∈ col_order (add_blanks_cols (columnsOf all_data)) := by
      rcases hfixed with hp | hb
      · exact mem_col_order.mpr (Or.inl hp)
      · exact mem_col_order.mpr (Or.inr (Or.inl hb))
    refine ⟨hord, fun hh => ?_⟩
    have := mem_other_cols.mp hh.1
    rcases hfixed with hp | hb
    · exact this.2.1 hp
    · exact this.2.2 hb

/-- Witness for claim C6 on the two-category corpus `wData2`: the column
`foo` is dropped from the `bookstores` table (empty in its every row) and
kept in the `religion` table; the fixed columns survive in both. -/
theorem per_category_pruning_witness :
    (mainSeparate wData2 = some wOut2
      ∧ ("bookstores", wBookTable) ∈ wOut2)
    ∧ (("foo" ∈ other_cols (add_blanks_cols (columnsOf wData2)) →
          ("foo" ∉ wBookTable.cols
            ↔ ∀ r ∈ wBookTable.rows, empty_val (dictGet r "foo") = true))
        ∧ (("foo" ∈ priority_cols ∨ "foo" ∈ remaining_base_cols) →
            "foo" ∈ wBookTable.cols)) :=
  ⟨⟨by decide, by decide⟩,
    per_category_pruning wData2 wOut2 (by decide)
      ("bookstores", wBookTable) (by decide) "foo"⟩

/-! ### Tag round trip: claim C3 -/

/-- A key of the extracted row outside the element's tags and the six fixed
field names reads as missing. -/
theorem dictGet_extract_not_tag {e : Element} {nl : Int → Option (Int × Int)}
    {p c k : String} (hnt : k ∉ e.tags.map Prod.fst)
    (hfix : k ∉ (["latitude", "longitude", "query_purpose", "query_county",
                  "osm_id", "osm_type"] : List String)) :
    dictGet (extract_element_data e nl p c) k = none := by
  unfold extract_element_data
  rw [dictGet_tagFold_not_mem hnt]
  simp only [List.mem_cons, List.mem_singleton, not_or] at hfix
  obtain ⟨h1, h2, h3, h4, h5, h6, -⟩ := hfix
  simp only [dictGet]
  rw [if_neg (fun hh => h1 hh.symm), if_neg (fun hh => h2 hh.symm),
    if_neg (fun hh => h3 hh.symm), if_neg (fun hh => h4 hh.symm),
    if_neg (fun hh => h5 hh.symm), if_neg (fun hh => h6 hh.symm)]

/-- Claim C3 counterexample: in the per-category mode the code runs, a tag
key (`foo`) present in an included record does not appear as a column of
any final table when its value is empty in every row of its category — the
empty-column pruning removes it, so the original (empty-string) value is
not round-tripped. -/
theorem tag_round_trip_counterexample :
    should_include_element elemFull (fun _ => none) = true
    ∧ ("foo", "") ∈ elemFull.tags
    ∧ mainSeparate wData = some wOut
    ∧ wOut.all (fun pt => !pt.2.cols.contains "foo") = true := by
  refine ⟨by decide, by decide, by decide, by decide⟩

/-- Claim C3 amended: tag keys become columns verbatim at the row level —
an included record's row holds each tag's exact original value under the
tag key, and a missing (unlisted, non-fixed) key reads as null — and, for
any corpus on which the run succeeds, every row of every category table
stems from a corpus row with the same value at every non-synthetic key; a
fixed priority or geometry/id column is always part of the table, and any
other key is a column of a category table exactly when it is a key of the
corpus and holds a non-empty value in some row of that table (the pruning
of step 5 removes it otherwise). -/
theorem tag_round_trip_amended (all_data : List Row) (out : List (String × DF))
    (h : mainSeparate all_data = some out) (k : String)
    (hk : k ∉ blank_cols) :
    (∀ (e : Element) (nl : Int → Option (Int × Int)) (p c : String)
        (v : String), (e.tags.map Prod.fst).Nodup → (k, v) ∈ e.tags →
        dictGet (extract_element_data e nl p c) k = some (.str v))
    ∧ (∀ (e : Element) (nl : Int → Option (Int × Int)) (p c : String),
        k ∉ e.tags.map Prod.fst →
        k ∉ (["latitude", "longitude", "query_purpose", "query_county",
              "osm_id", "osm_type"] : List String) →
        dictGet (extract_element_data e nl p c) k = none)
    ∧ ∀ pt ∈ out,
        (∀ r ∈ pt.2.rows, ∃ r0 ∈ all_data, dictGet r k = dictGet r0 k)
        ∧ (k ∈ priority_cols ++ remaining_base_cols → k ∈ pt.2.cols)
        ∧ (k ∉ priority_cols ++ remaining_base_cols →
            (k ∈ pt.2.cols ↔ k ∈ columnsOf all_data
              ∧ ∃ r ∈ pt.2.rows, empty_val (dictGet r k) = false)) := by
  obtain ⟨hout, -⟩ := mainSeparate_inv h
  subst hout
  refine ⟨fun e nl p c v hnd hkv => dictGet_tagFold_mem hnd hkv,
    fun e nl p c hnt hfix => dictGet_extract_not_tag hnt hfix,
    fun pt hpt => ?_⟩
  rcases List.mem_map.mp hpt with ⟨p, -, rfl⟩
  refine ⟨fun r hr => ?_, fun hfixed => ?_, fun hnfixed => ?_⟩
  · rw [prune_group_rows] at hr
    have hr2 : r ∈ (all_data.filter religion_keep).map add_blanks_row :=
      List.mem_filter.mp hr |>.1
    rcases List.mem_map.mp hr2 with ⟨r0, hr0, rfl⟩
    exact ⟨r0, (List.mem_filter.mp hr0).1, dictGet_add_blanks_row hk⟩
  · rw [mem_prune_group_cols]
    rcases List.mem_append.mp hfixed with hp | hb
    · exact ⟨mem_col_order.mpr (Or.inl hp),
        fun hh => (mem_other_cols.mp hh.1).2.1 hp⟩
    · exact ⟨mem_col_order.mpr (Or.inr (Or.inl hb)),
        fun hh => (mem_other_cols.mp hh.1).2.2 hb⟩
  · rw [List.mem_append, not_or] at hnfixed
    rw [mem_prune_group_cols]
    constructor
    · rintro ⟨h1, h2⟩
      rcases mem_col_order.mp h1 with hp | hb | hoth
      · exact absurd hp hnfixed.1
      · exact absurd hb hnfixed.2
      · have hcols2 := (mem_other_cols.mp hoth).1
        rcases mem_add_blanks_cols.mp hcols2 with hcorp | hbl
        · refine ⟨hcorp, ?_⟩
          have hnall : ¬ (group_rows ((all_data.filter religion_keep).map
                add_blanks_row) p).all (fun r => empty_val (dictGet r k))
              = true := fun hall => h2 ⟨hoth, hall⟩
          rw [List.all_eq_true] at hnall
          push_neg at hnall
          obtain ⟨r, hr, hre⟩ := hnall
          refine ⟨r, hr, ?_⟩
          cases hbe : empty_val (dictGet r k)
          · rfl
          · exact absurd hbe hre
        · exact absurd hbl hk
    · rintro ⟨hcorp, r, hr, hre⟩
      have hoth : k ∈ other_cols (add_blanks_cols (columnsOf all_data)) :=
        mem_other_cols.mpr ⟨mem_add_blanks_cols.mpr (Or.inl hcorp),
          hnfixed.1, hnfixed.2⟩
      refine ⟨mem_col_order.mpr (Or.inr (Or.inr hoth)), fun hh => ?_⟩
      rw [List.all_eq_true] at hh
      have := hh.2 r hr
      rw [this] at hre
      cases hre

/-- Witness for claim C3 on the `wData` corpus at the key `amenity`. -/
theorem tag_round_trip_amended_witness :
    (mainSeparate wData = some wOut ∧ "amenity" ∉ blank_cols)
    ∧ ((∀ (e : Element) (nl : Int → Option (Int × Int)) (p c : String)
          (v : String), (e.tags.map Prod.fst).Nodup →
          ("amenity", v) ∈ e.tags →
          dictGet (extract_element_data e nl p c) "amenity" = some (.str v))
      ∧ (∀ (e : Element) (nl : Int → Option (Int × Int)) (p c : String),
          "amenity" ∉ e.tags.map Prod.fst →
          "amenity" ∉ (["latitude", "longitude", "query_purpose",
                        "query_county", "osm_id", "osm_type"] : List String) →
          dictGet (extract_element_data e nl p c) "amenity" = none)
      ∧ ∀ pt ∈ wOut,
          (∀ r ∈ pt.2.rows, ∃ r0 ∈ wData,
              dictGet r "amenity" = dictGet r0 "amenity")
          ∧ ("amenity" ∈ priority_cols ++ remaining_base_cols →
              "amenity" ∈ pt.2.cols)
          ∧ ("amenity" ∉ priority_cols ++ remaining_base_cols →
              ("amenity" ∈ pt.2.cols ↔ "amenity" ∈ columnsOf wData
                ∧ ∃ r ∈ pt.2.rows,
                    empty_val (dictGet r "amenity") = false))) :=
  ⟨⟨by decide, by decide⟩,
    tag_round_trip_amended wData wOut (by decide) "amenity" (by decide)⟩

/-! ### Meaningful-row emission and node lookup: claim C8 -/

/-- Claim C8: a row is emitted only for records that pass the inclusion
filter, while the per-document node lookup is built from every
coordinate-carrying node, meaningful or not; on the §8 two-document
scenario the run emits exactly one row — the `Point` at (1, 2), type
`node` — and the geometry-only sibling point still resolves through the
lookup. -/
theorem meaningful_rows_spec :
    (∀ (elements : List Element) (p c : String),
        ∀ r ∈ process_json_file elements p c,
          ∃ nl, create_node_lookup elements = some nl
            ∧ ∃ e ∈ elements, should_include_element e nl = true
                ∧ r = extract_element_data e nl p c)
    ∧ (process_json_file docPoint "parks" "A"
        ++ process_json_file docWay "parks" "A" = [pointRow])
    ∧ ((create_node_lookup docWay).map (fun nl => nl 1) = some (some (3, 4)))
    ∧ dictGet pointRow "latitude" = some (.int 1)
    ∧ dictGet pointRow "longitude" = some (.int 2)
    ∧ dictGet pointRow "osm_type" = some (.str "node") := by
  refine ⟨fun elements p c r hr => ?_, by decide, by decide, by decide,
    by decide, by decide⟩
  unfold process_json_file at hr
  cases hnl : create_node_lookup elements with
  | none => rw [hnl] at hr; cases hr
  | some nl =>
      rw [hnl] at hr
      rcases List.mem_map.mp hr with ⟨e, he, rfl⟩
      rcases List.mem_filter.mp he with ⟨he1, he2⟩
      exact ⟨nl, rfl, e, he1, he2, rfl⟩

/-! ### Retriever retry policy: claim C7 -/

/-- The back-off delays of `fuel` consecutive retries starting at
`attempt`: `2 ^ attempt, 2 ^ (attempt + 1), ...`. -/
def retrySleeps : Nat → Nat → List Nat
  | 0, _ => []
  | fuel + 1, attempt => 2 ^ attempt :: retrySleeps fuel (attempt + 1)

/-- When every remaining attempt draws a retryable response (status >= 500
or 429), the loop exhausts its attempts, sleeping `2 ^ attempt` after each
one, and returns `none`. -/
theorem query_overpass_go_all_retry {α : Type}
    {responses : Nat → HttpOutcome α} :
    ∀ (fuel attempt : Nat),
      (∀ n, attempt ≤ n → n < attempt + fuel →
        ∃ s b, responses n = .resp s b ∧ (500 ≤ s ∨ s = 429)) →
      query_overpass_go responses fuel attempt = (none, retrySleeps fuel attempt)
  | 0, _, _ => rfl
  | fuel + 1, attempt, h => by
      obtain ⟨s, b, hr, hR⟩ := h attempt (Nat.le_refl _) (by omega)
      have hs : s ≠ 200 := by rcases hR with h' | h' <;> omega
      simp only [query_overpass_go, hr]
      rw [if_neg hs, if_pos hR,
        query_overpass_go_all_retry fuel (attempt + 1)
          (fun n h1 h2 => h n (by omega) (by omega))]
      rfl

/-- Claim C7: the retriever retries on HTTP 5xx or 429 with exponential
back-off `2 ^ attempt` seconds over at most 5 attempts, fails immediately
(returning `none`, no sleep) on any other non-200 status, returns `none`
rather than raising when retries are exhausted, and on three consecutive
503 responses followed by a 200 sleeps exactly 1 s, 2 s, 4 s and returns
the 200 body. -/
theorem retriever_retry_spec :
    (query_overpass (fun n => if n < 3 then HttpOutcome.resp 503 (0 : Nat)
        else HttpOutcome.resp 200 42) 5 = (some 42, [1, 2, 4]))
    ∧ (∀ (responses : Nat → HttpOutcome Nat) (s b : Nat),
        responses 0 = .resp s b → s ≠ 200 → ¬ 500 ≤ s → s ≠ 429 →
        query_overpass responses 5 = (none, []))
    ∧ (∀ responses : Nat → HttpOutcome Nat,
        (∀ n, n < 5 → ∃ s b, responses n = .resp s b ∧ (500 ≤ s ∨ s = 429)) →
        query_overpass responses 5 = (none, [1, 2, 4, 8, 16])) := by
  refine ⟨by decide, fun responses s b h0 hs hle h429 => ?_,
    fun responses h => ?_⟩
  · unfold query_overpass
    show query_overpass_go responses (4 + 1) 0 = (none, [])
    simp only [query_overpass_go, h0]
    rw [if_neg hs, if_neg (by tauto)]
  · unfold query_overpass
    rw [query_overpass_go_all_retry 5 0 (fun n h1 h2 => h n (by omega))]
    rfl

end Osm
